import Mathlib

/-!
Verification of the phase scheduler and fan-out/gather engine of
`server/src/engine/agent_orchestrator.py` ("Who is Human" game).

The Python source is shallowly embedded: Python integers are `Int`,
Python exceptions are the `PyErr` type (`asyncio.CancelledError` kept
distinct from `Exception` subclasses because `except Exception` does not
catch cancellation), fallible code returns `Except PyErr`, the mutable
orchestrator fields (`self.running`, `self.timers`) form the explicit
state `OrchState`, and concurrent completion order of `asyncio.gather`
tasks is an arbitrary permutation of the indexed task results.
-/

deriving instance DecidableEq for Except

namespace WhoIsHuman

/-- Python exception model: `asyncio.CancelledError` derives from
`BaseException` and is not caught by `except Exception`; every other
exception class is collapsed into `exn` with a message. -/
inductive PyErr where
  | cancelledError
  | exn (msg : String)
deriving DecidableEq, Repr

/-- JSON-ish payload values appearing in broadcast event data dicts. -/
inductive Value where
  | str (s : String)
  | int (n : Int)
deriving DecidableEq, Repr

/-- `GameEvent` dataclass: a `type` tag and a payload dict (modelled as an
association list in construction order). -/
structure GameEvent where
  type : String
  data : List (String × Value)
deriving DecidableEq, Repr

/-- `PhaseDurations` dataclass with the source's default field values.
The dataclass performs no validation of its fields. -/
structure PhaseDurations where
  round_start_ms : Int := 300
  discuss_ms : Int := 30000
  warning_ms : Int := 10000
  vote_ms : Int := 15000
deriving DecidableEq, Repr

/-- One entry of the game-state snapshot's `messages` list. -/
structure Message where
  playerId : String
  text : String
deriving DecidableEq, Repr

/-- The game-state snapshot dict as read by the orchestrator:
`game_state["phase"]`, `game_state["round"]`, `game_state["messages"]`. -/
structure GameState where
  phase : String
  round : Int
  messages : List Message
deriving DecidableEq, Repr

/-- A task stored in `self.timers` (an `asyncio.Task`): its sleep duration
and whether `cancel()` has been called on it. -/
structure TimerTask where
  delay_ms : Int
  cancelled : Bool
deriving DecidableEq, Repr

/-- The orchestrator's mutable scheduler state: `self.running` and
`self.timers`. -/
structure OrchState where
  running : Bool
  timers : List TimerTask
deriving DecidableEq, Repr

/-- `HostAgentOrchestrator.__init__`: `self.durations = durations or
PhaseDurations()` — an arbitrary caller-supplied configuration is stored
unvalidated, the default is used only when none is supplied. -/
def initDurations (durations : Option PhaseDurations) : PhaseDurations :=
  durations.getD {}

/-- The delay passed to `_set_timer` for the discussion warning:
`self.durations.discuss_ms - self.durations.warning_ms`. -/
def warnDelay (d : PhaseDurations) : Int :=
  d.discuss_ms - d.warning_ms

/-- `HostAgentOrchestrator.stop`: sets `running` to `False`, calls
`cancel()` on every task in `self.timers`, then clears the list. Returns
the post-state together with the list of tasks as cancelled. -/
def stopResult (s : OrchState) : OrchState × List TimerTask :=
  ({ s with running := false, timers := [] },
   s.timers.map fun t => { t with cancelled := true })

/-- The scheduler state after `stop()`. -/
def stop (s : OrchState) : OrchState :=
  (stopResult s).1

/-- `HostAgentOrchestrator.start`: `if self.running: return` else set
`running` and enter `_game_loop`. The boolean records whether a new loop
was begun. -/
def start_guard (s : OrchState) : OrchState × Bool :=
  if s.running then (s, false) else ({ s with running := true }, true)

/-- Outcome of awaiting one registered sleep task: it either expires
after its full duration or is cancelled `t` ms into the wait. -/
inductive SleepOutcome where
  | expired
  | cancelledAt (t : Int)
deriving DecidableEq, Repr

/-- Awaiting the `asyncio.sleep` task inside `_sleep`: normal expiry
returns after `ms` milliseconds; a cancelled task raises
`asyncio.CancelledError` at the cancellation time. The pair is (elapsed
milliseconds, result). -/
def awaitSleepTask (ms : Int) : SleepOutcome → Int × Except PyErr Unit
  | .expired => (ms, .ok ())
  | .cancelledAt t => (t, .error .cancelledError)

/-- `HostAgentOrchestrator._sleep` body: `try: await task except
asyncio.CancelledError: pass` — cancellation is caught and the method
returns normally. -/
def sleepBody (ms : Int) (o : SleepOutcome) : Int × Except PyErr Unit :=
  match awaitSleepTask ms o with
  | (el, .error .cancelledError) => (el, .ok ())
  | r => r

/-- `HostAgentOrchestrator._set_timer`'s effect on scheduler state:
`self.timers.append(task)` and nothing else. -/
def set_timer (s : OrchState) (ms : Int) : OrchState :=
  { s with timers := s.timers ++ [{ delay_ms := ms, cancelled := false }] }

/-- The `_timer` coroutine body inside `_set_timer`: `try: await
asyncio.sleep(...); callback() except asyncio.CancelledError: pass`.
Only `CancelledError` is caught — a callback exception of any other
class escapes the body and settles the task with that error. -/
def timerBody (o : SleepOutcome) (callbackResult : Except PyErr Unit) :
    Except PyErr Unit :=
  match o with
  | .cancelledAt _ => .ok ()
  | .expired =>
    match callbackResult with
    | .ok () => .ok ()
    | .error .cancelledError => .ok ()
    | .error e => .error e

/-- What one `_game_loop` iteration decides to do after polling state. -/
inductive LoopAction where
  | halted
  | ranHandler (phase : String)
  | idleWait
deriving DecidableEq, Repr

/-- One iteration of `HostAgentOrchestrator._game_loop`: the `while
self.running` check, then the phase dispatch on the polled snapshot.
`END` clears the running flag and breaks; unknown tags idle-wait. -/
def game_loop_step (s : OrchState) (gs : GameState) : OrchState × LoopAction :=
  if s.running = false then (s, .halted)
  else if gs.phase = "END" then ({ s with running := false }, .halted)
  else if gs.phase = "ROUND_START" then (s, .ranHandler "ROUND_START")
  else if gs.phase = "DISCUSS" then (s, .ranHandler "DISCUSS")
  else if gs.phase = "SUMMARY" then (s, .ranHandler "SUMMARY")
  else if gs.phase = "VOTE" then (s, .ranHandler "VOTE")
  else (s, .idleWait)

/-- The fallback returned by `AIAgentWrapper.speak`'s `except Exception`
branch when the underlying model call raises. -/
def speakFallback : String :=
  "I think that's an interesting point. Let me think about it."

/-- The fallback returned by
`HostAgentOrchestrator._get_agent_response`'s `except Exception` branch
when `speak` itself raises. -/
def responseFallback : String :=
  "I need to think about that for a moment."

/-- `AIAgentWrapper.speak`: awaits the model run and returns its string;
`except Exception` replaces an ordinary exception with `speakFallback`,
but `asyncio.CancelledError` is not an `Exception` and propagates. -/
def speak (runResult : Except PyErr String) : Except PyErr String :=
  match runResult with
  | .ok r => .ok r
  | .error .cancelledError => .error .cancelledError
  | .error (.exn _) => .ok speakFallback

/-- `HostAgentOrchestrator._get_agent_response`: awaits
`agent_wrapper.speak` and returns its string; `except Exception`
replaces an ordinary exception with `responseFallback`;
`asyncio.CancelledError` again propagates. -/
def get_agent_response (speakResult : Except PyErr String) : Except PyErr String :=
  match speakResult with
  | .ok r => .ok r
  | .error .cancelledError => .error .cancelledError
  | .error (.exn _) => .ok responseFallback

/-- The static fields of `AIAgentWrapper` (the `respond` capability is
supplied separately as a behavior function). -/
structure AIAgentWrapper where
  agent_id : String
  name : String
  persona : String
deriving DecidableEq, Repr

/-- One task of the discussion fan-out:
`_get_agent_response(agent_wrapper, context)`, whose body runs
`speak(context)` over the agent's model call. `run` is the agent's
external model behavior: the outcome of `self.agent.run` on the prompt
built from the given context. -/
def agentTask (run : String → Except PyErr String) (context : String) :
    Except PyErr String :=
  get_agent_response (speak (run context))

/-- The text the fan-out produces for one agent as a function of its
model outcome: the real response when the model call succeeds, the
`speak` fallback when it raises an ordinary exception. -/
def taskText (runResult : Except PyErr String) : String :=
  match runResult with
  | .ok s => s
  | .error _ => speakFallback

/-- Whether an agent's model call failed. -/
def isFailure (r : Except PyErr String) : Bool :=
  match r with
  | .ok _ => false
  | .error _ => true

/-- `asyncio.gather(*tasks)` value semantics: if every task completes
with a value the results are returned in task-argument order; if a task
raises, the exception propagates out of the gather. -/
def gatherExcept : List (Except PyErr α) → Except PyErr (List α)
  | [] => .ok []
  | t :: ts =>
    match t with
    | .error e => .error e
    | .ok a =>
      match gatherExcept ts with
      | .error e => .error e
      | .ok l => .ok (a :: l)

/-- The registry `self.ai_agents` as an insertion-ordered sequence of
agents, each paired with its external model behavior. -/
abbrev AgentRegistry : Type :=
  List (AIAgentWrapper × (String → Except PyErr String))

/-- The discussion fan-out/gather over the registry: one
`_get_agent_response` task per registered agent (registration order),
gathered, then paired with the agent identities by the broadcast loop's
`zip(self.ai_agents.items(), responses)`. -/
def discussGather (agents : AgentRegistry) (ctx : String) :
    Except PyErr (List (String × String)) :=
  (gatherExcept (agents.map fun p => agentTask p.2 ctx)).map
    fun responses => (agents.map fun p => p.1.agent_id).zip responses

/-- `asyncio.gather`'s reassembly of concurrently completing tasks: each
completion `(i, r)` fills slot `i`, and the gather returns the slots in
index order. `cs` is the set of completions in whatever order the event
loop produced them. -/
def reassemble (n : Nat) (cs : List (Nat × String)) : List String :=
  (List.range n).filterMap fun i => (cs.find? fun c => c.1 == i).map Prod.snd

/-- The context string built for every agent in `_handle_discussion`:
`f"Human said in round {round}: \"{text}\""`. -/
def contextFor (round : Int) (text : String) : String :=
  "Human said in round " ++ toString round ++ ": \"" ++ text ++ "\""

/-- Python's `str.startswith`: whether the second string is an initial
segment of the first, character by character. -/
def pyStartswith (s p : String) : Bool :=
  p.data.isPrefixOf s.data

/-- `next((m for m in reversed(messages) if m["playerId"].startswith("u-")), None)`:
the most recent message whose sender id begins with `"u-"`. -/
def last_human_message (messages : List Message) : Option Message :=
  messages.reverse.find? fun m => pyStartswith m.playerId "u-"

/-- The `phase` event `_handle_discussion` broadcasts on entry. -/
def discussPhaseEvt (round : Int) : GameEvent :=
  ⟨"phase", [("phase", .str "DISCUSS"), ("round", .int round)]⟩

/-- The `notice` event the `_warn` callback broadcasts. -/
def warnEvt : GameEvent :=
  ⟨"notice", [("text", .str "⏳ Discussion almost over")]⟩

/-- A `message` event attributing `text` to player `pid` in `round`. -/
def messageEvt (pid : String) (round : Int) (text : String) : GameEvent :=
  ⟨"message", [("playerId", .str pid), ("round", .int round), ("text", .str text)]⟩

/-- The observable outcome of one `_handle_discussion` call: the events
broadcast in order, the `(agent_id, context)` of every `respond` call
issued, the timers scheduled (delay and the event the callback emits),
and the duration of the final blocking wait. -/
structure DiscussOutcome where
  events : List GameEvent
  contexts : List (String × String)
  timersSet : List (Int × GameEvent)
  sleptMs : Int

/-- `HostAgentOrchestrator._handle_discussion`: broadcast the `phase`
event; find the last human message; if present, create one task per
registered agent on the shared context, gather (the tasks complete in
the arbitrary order `cs` and are reassembled into task order), and
broadcast one `message` event per agent by zipping the registry with the
responses; in all cases schedule the warning timer for
`discuss_ms - warning_ms` and block for the full `discuss_ms`. -/
def handle_discussion (agents : AgentRegistry) (d : PhaseDurations)
    (gs : GameState) (cs : List (Nat × String)) : DiscussOutcome :=
  let pe := discussPhaseEvt gs.round
  let warnTimer := (d.discuss_ms - d.warning_ms, warnEvt)
  match last_human_message gs.messages with
  | none =>
    { events := [pe], contexts := [],
      timersSet := [warnTimer], sleptMs := d.discuss_ms }
  | some m =>
    let ctx := contextFor gs.round m.text
    let responses := reassemble agents.length cs
    let msgEvts := (agents.zip responses).map fun p =>
      messageEvt p.1.1.agent_id gs.round p.2
    { events := pe :: msgEvts,
      contexts := agents.map fun p => (p.1.agent_id, ctx),
      timersSet := [warnTimer], sleptMs := d.discuss_ms }

/-- A statement of `_handle_discussion` with a virtual-time effect:
emitting is instantaneous, awaiting the gather takes the joint duration
of the fan-out, `_set_timer` returns immediately while its callback
fires after the delay, and `_sleep` blocks for its duration. -/
inductive Op where
  | emit (e : GameEvent)
  | gatherWait (dur : Int)
  | setTimer (delay : Int) (e : GameEvent)
  | sleep (ms : Int)

/-- Run a statement sequence from time `t`: returns the finish time, the
timestamped emissions, and the timestamped timer-callback firings. -/
def runOps : Int → List Op → Int × List (Int × GameEvent) × List (Int × GameEvent)
  | t, [] => (t, [], [])
  | t, .emit e :: rest =>
    let r := runOps t rest
    (r.1, (t, e) :: r.2.1, r.2.2)
  | t, .gatherWait dur :: rest => runOps (t + dur) rest
  | t, .setTimer delay e :: rest =>
    let r := runOps t rest
    (r.1, r.2.1, (t + delay, e) :: r.2.2)
  | t, .sleep ms :: rest => runOps (t + ms) rest

/-- The statement sequence of `_handle_discussion` in source order:
broadcast `phase`; when a human message is present, await the gather
(taking `gatherDur`) and broadcast the agent messages; then set the
warning timer and sleep the full discussion duration. `msgEvts` are the
agent-attributed message events of this round's gather. -/
def discussionOps (d : PhaseDurations) (gs : GameState)
    (msgEvts : List GameEvent) (gatherDur : Int) : List Op :=
  .emit (discussPhaseEvt gs.round) ::
    ((match last_human_message gs.messages with
      | none => []
      | some _ => Op.gatherWait gatherDur :: msgEvts.map Op.emit) ++
     [.setTimer (d.discuss_ms - d.warning_ms) warnEvt, .sleep d.discuss_ms])

/-- Claim C4 counterexample — the claim that every `PhaseDurations`
configuration the orchestrator operates with satisfies
`warning_ms ≤ discuss_ms` is false: the dataclass performs no
validation, so the orchestrator stores a configuration with
`warning_ms = 40000 > discuss_ms = 30000`, whose warning delay is the
negative `-10000`. -/
theorem C4_invariant_not_enforced :
    ¬ (∀ od : Option PhaseDurations,
        (initDurations od).warning_ms ≤ (initDurations od).discuss_ms) := by
  intro h
  have := h (some { round_start_ms := 300, discuss_ms := 30000,
                    warning_ms := 40000, vote_ms := 15000 })
  simp [initDurations] at this

/-- Claim C4 (amended) — the default `PhaseDurations` satisfies
`warning_ms ≤ discuss_ms`, and for every configuration that satisfies
the invariant the discussion-warning delay `discuss_ms - warning_ms` is
non-negative; the invariant itself is not enforced on arbitrary
configurations. -/
theorem C4_default_invariant :
    (initDurations none).warning_ms ≤ (initDurations none).discuss_ms
    ∧ 0 ≤ warnDelay (initDurations none)
    ∧ ∀ d : PhaseDurations, d.warning_ms ≤ d.discuss_ms → 0 ≤ warnDelay d := by
  refine ⟨by decide, by decide, fun d h => ?_⟩
  simp only [warnDelay]
  omega

/-- Claim C4 (amended) witness: the non-negativity consequence evaluated
at the default configuration. -/
theorem C4_default_invariant_witness :
    0 ≤ warnDelay { round_start_ms := 300, discuss_ms := 30000,
                    warning_ms := 10000, vote_ms := 15000 } :=
  C4_default_invariant.2.2
    { round_start_ms := 300, discuss_ms := 30000,
      warning_ms := 10000, vote_ms := 15000 } (by decide)

/-- Claim C5 — `start` while already running returns without beginning a
second loop and leaves the state unchanged; `stop` while already stopped
(running flag false, timer registry empty) leaves the state unchanged. -/
theorem C5_start_stop_idempotent (s : OrchState) :
    (s.running = true → start_guard s = (s, false))
    ∧ (s.running = false → s.timers = [] → stop s = s) := by
  constructor
  · intro h
    simp [start_guard, h]
  · intro h ht
    cases s
    simp_all [stop, stopResult]

/-- Claim C5 witness: a running state with one timer is untouched by
`start`, and the stopped empty state is untouched by `stop`. -/
theorem C5_start_stop_idempotent_witness :
    start_guard { running := true, timers := [{ delay_ms := 100, cancelled := false }] }
      = ({ running := true, timers := [{ delay_ms := 100, cancelled := false }] }, false)
    ∧ stop { running := false, timers := [] } = { running := false, timers := [] } :=
  ⟨(C5_start_stop_idempotent
      { running := true, timers := [{ delay_ms := 100, cancelled := false }] }).1 rfl,
   (C5_start_stop_idempotent { running := false, timers := [] }).2 rfl rfl⟩

/-- Claim C6 — `stop` cancels every task held in the timer registry and
leaves the registry empty, and a caller suspended in `_sleep` whose task
is cancelled `t ≤ ms` milliseconds in returns normally (no error) and
early (after `t`, not `ms`, milliseconds). -/
theorem C6_stop_cancels_all (s : OrchState) (ms t : Int) (h : t ≤ ms) :
    (stopResult s).1.timers = []
    ∧ (stopResult s).2.length = s.timers.length
    ∧ (∀ tk ∈ (stopResult s).2, tk.cancelled = true)
    ∧ sleepBody ms (.cancelledAt t) = (t, .ok ())
    ∧ (sleepBody ms (.cancelledAt t)).1 ≤ ms := by
  refine ⟨rfl, by simp [stopResult], ?_, rfl, by simpa [sleepBody, awaitSleepTask]⟩
  intro tk htk
  simp [stopResult] at htk
  obtain ⟨a, _, rfl⟩ := htk
  rfl

/-- Claim C6 witness: stopping a state with two pending timers, and a
40 ms sleep cancelled at 15 ms. -/
theorem C6_stop_cancels_all_witness :
    (stopResult ⟨true, [⟨30000, false⟩, ⟨100, false⟩]⟩).1.timers = []
    ∧ sleepBody 40 (.cancelledAt 15) = (15, .ok ()) :=
  ⟨(C6_stop_cancels_all ⟨true, [⟨30000, false⟩, ⟨100, false⟩]⟩ 40 15 (by decide)).1,
   (C6_stop_cancels_all ⟨true, [⟨30000, false⟩, ⟨100, false⟩]⟩ 40 15 (by decide)).2.2.2.1⟩

/-- Claim C7 counterexample — the claim that a callback exception is
swallowed by the timer is false: the `_timer` body catches only
`asyncio.CancelledError`, so a callback raising an ordinary exception
settles the timer task with that error instead of returning normally. -/
theorem C7_callback_error_not_swallowed :
    timerBody .expired (.error (.exn "boom")) = .error (.exn "boom")
    ∧ timerBody .expired (.error (.exn "boom")) ≠ .ok () := by
  exact ⟨rfl, by simp [timerBody]⟩

/-- Claim C7 (amended) — only cancellation is swallowed by the `_timer`
body: cancellation of the timer, or a `CancelledError` escaping the
callback, yields a normal return, while any other callback exception
settles that timer task with the error; the timer registry and the
running flag are unaffected either way, because `_set_timer` appends the
task before it runs and changes nothing else. -/
theorem C7_only_cancellation_swallowed (s : OrchState) (ms t : Int)
    (o : SleepOutcome) (r : Except PyErr Unit) (msg : String) :
    (set_timer s ms).running = s.running
    ∧ (set_timer s ms).timers = s.timers ++ [{ delay_ms := ms, cancelled := false }]
    ∧ timerBody o (.error .cancelledError) = .ok ()
    ∧ timerBody (.cancelledAt t) r = .ok ()
    ∧ timerBody .expired (.error (.exn msg)) = .error (.exn msg) := by
  refine ⟨rfl, rfl, ?_, rfl, rfl⟩
  cases o with
  | expired => rfl
  | cancelledAt t => rfl

/-- Claim C9 — when the polled snapshot's phase tag is `END` and the
loop is running, the iteration clears the running flag and halts: no
phase handler runs, and the timer registry is left as it was (`stop` is
not called). -/
theorem C9_end_is_terminal (s : OrchState) (gs : GameState)
    (hr : s.running = true) (hp : gs.phase = "END") :
    game_loop_step s gs = ({ s with running := false }, .halted)
    ∧ ({ s with running := false } : OrchState).timers = s.timers := by
  refine ⟨?_, rfl⟩
  simp [game_loop_step, hr, hp]

/-- Claim C9 witness: a running scheduler with one timer observing an
`END` snapshot halts with the flag cleared and the timer list intact. -/
theorem C9_end_is_terminal_witness :
    game_loop_step
      { running := true, timers := [{ delay_ms := 15000, cancelled := false }] }
      { phase := "END", round := 3, messages := [] }
      = ({ running := false, timers := [{ delay_ms := 15000, cancelled := false }] },
         .halted) :=
  (C9_end_is_terminal
      { running := true, timers := [{ delay_ms := 15000, cancelled := false }] }
      { phase := "END", round := 3, messages := [] } rfl rfl).1

theorem find?_as_filter (p : α → Bool) : ∀ l : List α, l.find? p = (l.filter p).head?
  | [] => rfl
  | a :: l => by
    by_cases h : p a
    · rw [List.find?_cons_of_pos l h, List.filter_cons, if_pos h]
      rfl
    · rw [List.find?_cons_of_neg l h, List.filter_cons, if_neg h, find?_as_filter p l]

theorem enumFrom_filter_of_lt (l : List α) : ∀ n m : Nat, m < n →
    (List.enumFrom n l).filter (fun c => c.1 == m) = [] := by
  induction l with
  | nil => intro n m h; rfl
  | cons a l ih =>
    intro n m h
    have hne : (n == m) = false := by
      simp
      omega
    simp only [List.enumFrom, List.filter_cons, hne]
    simpa using ih (n + 1) m (Nat.lt_succ_of_lt h)

theorem enumFrom_filter_at (l : List α) : ∀ (n i : Nat) (h : i < l.length),
    (List.enumFrom n l).filter (fun c => c.1 == n + i) = [(n + i, l.get ⟨i, h⟩)] := by
  induction l with
  | nil => intro n i h; exact absurd h (Nat.not_lt_zero i)
  | cons a l ih =>
    intro n i h
    cases i with
    | zero =>
      simp only [List.enumFrom, List.filter_cons, Nat.add_zero, beq_self_eq_true, if_true]
      have := enumFrom_filter_of_lt l (n + 1) n (Nat.lt_succ_self n)
      simp [this]
    | succ k =>
      have hne : (n == n + (k + 1)) = false := by
        simp
      have h' : k < l.length := Nat.lt_of_succ_lt_succ h
      simp only [List.enumFrom, List.filter_cons, hne, if_false]
      have := ih (n + 1) k h'
      rw [show n + (k + 1) = n + 1 + k by omega]
      simpa using this

theorem find?_of_perm_enum (l : List String) (cs : List (Nat × String))
    (h : cs.Perm l.enum) (i : Nat) (hi : i < l.length) :
    cs.find? (fun c => c.1 == i) = some (i, l.get ⟨i, hi⟩) := by
  rw [find?_as_filter]
  have hf : cs.filter (fun c => c.1 == i) = [(i, l.get ⟨i, hi⟩)] := by
    apply List.perm_singleton.mp
    have hp := h.filter (fun c => c.1 == i)
    have he : (l.enum).filter (fun c => c.1 == i) = [(i, l.get ⟨i, hi⟩)] := by
      have := enumFrom_filter_at l 0 i hi
      simpa [List.enum] using this
    rwa [he] at hp
  rw [hf]
  rfl

theorem range_filterMap_get? (l : List α) :
    (List.range l.length).filterMap (fun i => l.get? i) = l := by
  induction l with
  | nil => rfl
  | cons a l ih =>
    rw [List.length_cons, List.range_succ_eq_map, List.filterMap_cons]
    simp only [List.get?_cons_zero]
    rw [List.filterMap_map]
    have hc : ((fun i => (a :: l).get? i) ∘ Nat.succ) = fun i => l.get? i := by
      funext i
      simp [List.get?_cons_succ]
    rw [hc, ih]

theorem reassemble_perm (l : List String) (cs : List (Nat × String))
    (h : cs.Perm l.enum) : reassemble l.length cs = l := by
  unfold reassemble
  have hc : ∀ i ∈ List.range l.length,
      ((cs.find? fun c => c.1 == i).map Prod.snd) = l.get? i := by
    intro i hi
    rw [List.mem_range] at hi
    rw [find?_of_perm_enum l cs h i hi, List.get?_eq_get hi]
    rfl
  rw [List.filterMap_congr hc, range_filterMap_get? l]

theorem zip_map_self (l : List α) (f : α → β) :
    l.zip (l.map f) = l.map fun a => (a, f a) := by
  have := List.zip_map' (fun a : α => a) f l
  simpa using this

theorem gatherExcept_ok {g : β → Except PyErr String} {f : β → String} :
    ∀ l : List β, (∀ x ∈ l, g x = .ok (f x)) →
      gatherExcept (l.map g) = .ok (l.map f) := by
  intro l
  induction l with
  | nil => intro _; rfl
  | cons a l ih =>
    intro h
    have ha := h a (List.mem_cons_self a l)
    have ht := ih fun x hx => h x (List.mem_cons_of_mem a hx)
    simp [gatherExcept, ha, ht]

theorem agentTask_ok (run : String → Except PyErr String) (ctx : String)
    (h : run ctx ≠ .error .cancelledError) :
    agentTask run ctx = .ok (taskText (run ctx)) := by
  cases hr : run ctx with
  | ok s => simp [agentTask, speak, get_agent_response, taskText, hr]
  | error e =>
    cases e with
    | cancelledError => exact absurd hr h
    | exn m => simp [agentTask, speak, get_agent_response, taskText, hr]

theorem countP_fallback (ctx : String) : ∀ agents : AgentRegistry,
    (∀ p ∈ agents, ∀ s, p.2 ctx = .ok s → s ≠ speakFallback) →
    (agents.map fun p => (p.1.agent_id, taskText (p.2 ctx))).countP
        (fun o => o.2 == speakFallback)
      = (agents.map fun p => p.2 ctx).countP isFailure := by
  intro agents
  induction agents with
  | nil => intro _; rfl
  | cons a l ih =>
    intro h
    have ht := ih fun x hx => h x (List.mem_cons_of_mem a hx)
    simp only [List.map_cons, List.countP_cons, ht]
    cases hr : a.2 ctx with
    | ok s =>
      have hs : s ≠ speakFallback := h a (List.mem_cons_self a l) s hr
      simp [taskText, isFailure, hs]
    | error e => simp [taskText, isFailure]

/-- Claim C2 — with no cancellation in flight, the fan-out over N agents
of which K fail returns exactly N outcomes paired with the agents'
identities in registration order: failing agents yield the fallback text
and the rest their real responses, and (when no real response happens to
equal the fallback text) the number of fallback outcomes equals the
number of failing agents. No individual failure aborts the gather. -/
theorem C2_gather_totality (agents : AgentRegistry) (ctx : String)
    (h : ∀ p ∈ agents, p.2 ctx ≠ Except.error PyErr.cancelledError) :
    discussGather agents ctx
      = .ok (agents.map fun p => (p.1.agent_id, taskText (p.2 ctx)))
    ∧ (agents.map fun p => (p.1.agent_id, taskText (p.2 ctx))).length = agents.length
    ∧ ((∀ p ∈ agents, ∀ s, p.2 ctx = .ok s → s ≠ speakFallback) →
        (agents.map fun p => (p.1.agent_id, taskText (p.2 ctx))).countP
            (fun o => o.2 == speakFallback)
          = (agents.map fun p => p.2 ctx).countP isFailure) := by
  refine ⟨?_, List.length_map agents _, countP_fallback ctx agents⟩
  unfold discussGather
  rw [gatherExcept_ok agents fun p hp => agentTask_ok p.2 ctx (h p hp)]
  simp only [Except.map]
  rw [List.zip_map']

/-- Claim C2 witness: two agents, the second one's model call raising an
API error; the gather returns both outcomes, the second replaced by the
fallback. -/
theorem C2_gather_totality_witness :
    discussGather
        [(⟨"a1", "Alice", "calm"⟩, fun _ => .ok "sounds plausible"),
         (⟨"a2", "Bob", "bold"⟩, fun _ => .error (.exn "api down"))]
        "Human said in round 1: \"hi\""
      = .ok [("a1", "sounds plausible"), ("a2", speakFallback)] := by
  have := (C2_gather_totality
      [(⟨"a1", "Alice", "calm"⟩, fun _ => .ok "sounds plausible"),
       (⟨"a2", "Bob", "bold"⟩, fun _ => .error (.exn "api down"))]
      "Human said in round 1: \"hi\""
      (by
        intro p hp
        rcases List.mem_cons.mp hp with rfl | hp2
        · simp
        · rcases List.mem_cons.mp hp2 with rfl | hp3
          · simp
          · simp at hp3)).1
  simpa [taskText] using this

/-- Claim C1 — in a DISCUSS round with a human message present, for
every completion order of the concurrent respond tasks (any permutation
of the indexed task results), the handler emits the `phase` event
followed by exactly one `message` event per registered agent, carrying
that agent's own response, in registration order; the attributed
`playerId` sequence equals the registry order. -/
theorem C1_broadcast_registration_order (agents : AgentRegistry)
    (d : PhaseDurations) (gs : GameState) (cs : List (Nat × String)) (m : Message)
    (hm : last_human_message gs.messages = some m)
    (hp : cs.Perm ((agents.map fun p =>
        taskText (p.2 (contextFor gs.round m.text))).enum)) :
    (handle_discussion agents d gs cs).events
      = discussPhaseEvt gs.round ::
          agents.map (fun p =>
            messageEvt p.1.agent_id gs.round
              (taskText (p.2 (contextFor gs.round m.text))))
    ∧ ((handle_discussion agents d gs cs).events.tail.map
          fun e => e.data.lookup "playerId")
      = agents.map fun p => some (Value.str p.1.agent_id) := by
  have hre : reassemble agents.length cs
      = agents.map fun p => taskText (p.2 (contextFor gs.round m.text)) := by
    rw [show agents.length
        = (agents.map fun p => taskText (p.2 (contextFor gs.round m.text))).length
      from (List.length_map agents _).symm]
    exact reassemble_perm _ cs hp
  constructor
  · simp only [handle_discussion, hm, hre, zip_map_self, List.map_map]
    rfl
  · simp only [handle_discussion, hm, hre, zip_map_self, List.map_map, List.tail_cons]
    apply List.map_congr_left
    intro p _
    simp [messageEvt, List.lookup]

/-- Claim C1 witness: two agents whose tasks complete in reverse order
(the second agent finishes first); the broadcast still attributes the
responses in registration order. -/
theorem C1_broadcast_registration_order_witness :
    (handle_discussion
        [(⟨"a1", "Alice", "calm"⟩, fun _ => .ok "r1"),
         (⟨"a2", "Bob", "bold"⟩, fun _ => .ok "r2")]
        {} ⟨"DISCUSS", 2, [⟨"u-7", "who is real?"⟩]⟩
        [(1, "r2"), (0, "r1")]).events
      = [discussPhaseEvt 2, messageEvt "a1" 2 "r1", messageEvt "a2" 2 "r2"] := by
  have := (C1_broadcast_registration_order
      [(⟨"a1", "Alice", "calm"⟩, fun _ => .ok "r1"),
       (⟨"a2", "Bob", "bold"⟩, fun _ => .ok "r2")]
      {} ⟨"DISCUSS", 2, [⟨"u-7", "who is real?"⟩]⟩
      [(1, "r2"), (0, "r1")] ⟨"u-7", "who is real?"⟩ (by decide)
      (by exact List.Perm.swap _ _ _)).1
  simpa [taskText] using this

/-- Claim C3 — when the snapshot holds no message from a sender matching
the human convention, the DISCUSS handler skips the fan-out: no agent
respond call is issued and no agent-attributed `message` event is
emitted, while the `phase` event is still broadcast. -/
theorem C3_no_human_skips_fanout (agents : AgentRegistry)
    (d : PhaseDurations) (gs : GameState) (cs : List (Nat × String))
    (h : last_human_message gs.messages = none) :
    (handle_discussion agents d gs cs).events = [discussPhaseEvt gs.round]
    ∧ (handle_discussion agents d gs cs).contexts = [] := by
  simp [handle_discussion, h]

/-- Claim C3 witness: a snapshot whose messages are all from `host` or
`ai-`-prefixed senders leads to a round with only the `phase` event and
zero respond calls, despite two registered agents. -/
theorem C3_no_human_skips_fanout_witness :
    (handle_discussion
        [(⟨"a1", "Alice", "calm"⟩, fun _ => .ok "r1"),
         (⟨"a2", "Bob", "bold"⟩, fun _ => .ok "r2")]
        {} ⟨"DISCUSS", 1, [⟨"host", "rules"⟩, ⟨"ai-3", "hello"⟩]⟩ []).events
      = [discussPhaseEvt 1]
    ∧ (handle_discussion
        [(⟨"a1", "Alice", "calm"⟩, fun _ => .ok "r1"),
         (⟨"a2", "Bob", "bold"⟩, fun _ => .ok "r2")]
        {} ⟨"DISCUSS", 1, [⟨"host", "rules"⟩, ⟨"ai-3", "hello"⟩]⟩ []).contexts = [] :=
  C3_no_human_skips_fanout
    [(⟨"a1", "Alice", "calm"⟩, fun _ => .ok "r1"),
     (⟨"a2", "Bob", "bold"⟩, fun _ => .ok "r2")]
    {} ⟨"DISCUSS", 1, [⟨"host", "rules"⟩, ⟨"ai-3", "hello"⟩]⟩ [] (by decide)

theorem find?_append_last (p : α → Bool) (m : α) :
    ∀ a : List α, ∀ b : List α, (∀ x ∈ a, p x = false) → p m = true →
      (a ++ m :: b).find? p = some m := by
  intro a
  induction a with
  | nil =>
    intro b _ hm
    rw [List.nil_append, List.find?_cons_of_pos b hm]
  | cons x a ih =>
    intro b h hm
    have hx : p x = false := h x (List.mem_cons_self x a)
    rw [List.cons_append, List.find?_cons_of_neg _ (by simp [hx])]
    exact ih b (fun y hy => h y (List.mem_cons_of_mem x hy)) hm

/-- Claim C10 — the human-player convention is concretely: a message is
the human's exactly when its `playerId` starts with `"u-"`; the DISCUSS
handler selects the last such message of the snapshot (any messages
after it are non-human) and gives every registered agent the context
string embedding the round number and that message's text. -/
theorem C10_human_prefix_convention (agents : AgentRegistry)
    (d : PhaseDurations) (cs : List (Nat × String)) (gs : GameState)
    (s t : List Message) (m : Message)
    (hsplit : gs.messages = s ++ m :: t)
    (hm : pyStartswith m.playerId "u-" = true)
    (ht : ∀ x ∈ t, pyStartswith x.playerId "u-" = false) :
    last_human_message gs.messages = some m
    ∧ (handle_discussion agents d gs cs).contexts
        = agents.map fun p =>
            (p.1.agent_id,
             "Human said in round " ++ toString gs.round ++ ": \"" ++ m.text ++ "\"") := by
  have hlast : last_human_message gs.messages = some m := by
    unfold last_human_message
    rw [hsplit, List.reverse_append, List.reverse_cons, List.append_assoc]
    exact find?_append_last _ m t.reverse (s.reverse)
      (fun x hx => ht x (List.mem_reverse.mp hx)) hm
  refine ⟨hlast, ?_⟩
  simp [handle_discussion, hlast, contextFor]

/-- Claim C10 witness: with an older human message, a newest human
message, and a later host message, the handler selects the newest
`u-`-prefixed sender and hands both agents the context embedding round 2
and its text. -/
theorem C10_human_prefix_convention_witness :
    last_human_message [⟨"u-1", "old"⟩, ⟨"u-9", "newest"⟩, ⟨"host", "vote soon"⟩]
      = some ⟨"u-9", "newest"⟩
    ∧ (handle_discussion
        [(⟨"a1", "Alice", "calm"⟩, fun _ => .ok "r1"),
         (⟨"a2", "Bob", "bold"⟩, fun _ => .ok "r2")]
        {} ⟨"DISCUSS", 2, [⟨"u-1", "old"⟩, ⟨"u-9", "newest"⟩, ⟨"host", "vote soon"⟩]⟩
        [(0, "r1"), (1, "r2")]).contexts
      = [("a1", "Human said in round 2: \"newest\""),
         ("a2", "Human said in round 2: \"newest\"")] := by
  have := C10_human_prefix_convention
      [(⟨"a1", "Alice", "calm"⟩, fun _ => .ok "r1"),
       (⟨"a2", "Bob", "bold"⟩, fun _ => .ok "r2")]
      {} [(0, "r1"), (1, "r2")]
      ⟨"DISCUSS", 2, [⟨"u-1", "old"⟩, ⟨"u-9", "newest"⟩, ⟨"host", "vote soon"⟩]⟩
      [⟨"u-1", "old"⟩] [⟨"host", "vote soon"⟩] ⟨"u-9", "newest"⟩
      rfl (by decide) (by intro x hx; simp at hx; subst hx; decide)
  simpa using this

theorem runOps_emits (evs : List GameEvent) (rest : List Op) (t : Int) :
    runOps t (evs.map Op.emit ++ rest)
      = ((runOps t rest).1,
         evs.map (fun e => (t, e)) ++ (runOps t rest).2.1,
         (runOps t rest).2.2) := by
  induction evs with
  | nil => rfl
  | cons e evs ih => simp [runOps, ih]

/-- Claim C8 counterexample — the warning is not scheduled at DISCUSS
phase entry: the timer is set only after the agent gather completes, so
with the default durations and a gather taking 5000 ms the `notice`
fires 25000 ms after phase entry, not `discuss - warningLeadTime =
20000` ms, and the phase wait completes at 35000 ms, not 30000 ms. -/
theorem C8_warning_not_at_phase_entry :
    (runOps 0 (discussionOps {} ⟨"DISCUSS", 1, [⟨"u-1", "hi"⟩]⟩
        [messageEvt "a1" 1 "r"] 5000)).2.2
      = [(25000, warnEvt)]
    ∧ (25000 : Int) ≠ 30000 - 10000
    ∧ (runOps 0 (discussionOps {} ⟨"DISCUSS", 1, [⟨"u-1", "hi"⟩]⟩
        [messageEvt "a1" 1 "r"] 5000)).1 = 35000 := by
  refine ⟨by decide, by decide, by decide⟩

/-- Claim C8 (amended) — in a DISCUSS phase with a human message whose
gather takes `g` ms, the `notice` warning is scheduled when the gather
completes and fires `discuss_ms - warning_ms` ms later, i.e. at
`g + (discuss_ms - warning_ms)` relative to phase entry, concurrently
with the full-duration wait that completes at `g + discuss_ms`; the
warning never fires after the wait ends when `warning_ms ≥ 0`, and the
spec's phase-entry offsets hold exactly when the gather is
instantaneous (`g = 0`). -/
theorem C8_warning_timing (d : PhaseDurations) (gs : GameState) (m : Message)
    (evs : List GameEvent) (g t0 : Int)
    (hm : last_human_message gs.messages = some m) :
    (runOps t0 (discussionOps d gs evs g)).2.2
      = [(t0 + g + (d.discuss_ms - d.warning_ms), warnEvt)]
    ∧ (runOps t0 (discussionOps d gs evs g)).1 = t0 + g + d.discuss_ms
    ∧ (0 ≤ d.warning_ms →
        t0 + g + (d.discuss_ms - d.warning_ms) ≤ t0 + g + d.discuss_ms)
    ∧ (g = 0 →
        (runOps t0 (discussionOps d gs evs g)).2.2
          = [(t0 + (d.discuss_ms - d.warning_ms), warnEvt)]
        ∧ (runOps t0 (discussionOps d gs evs g)).1 = t0 + d.discuss_ms) := by
  have key : ∀ u : Int,
      runOps u (evs.map Op.emit
        ++ [Op.setTimer (d.discuss_ms - d.warning_ms) warnEvt,
            Op.sleep d.discuss_ms])
      = (u + d.discuss_ms, evs.map fun e => (u, e),
         [(u + (d.discuss_ms - d.warning_ms), warnEvt)]) := by
    intro u
    rw [runOps_emits]
    simp [runOps]
  have hrun : runOps t0 (discussionOps d gs evs g)
      = (t0 + g + d.discuss_ms,
         (t0, discussPhaseEvt gs.round) :: evs.map (fun e => (t0 + g, e)),
         [(t0 + g + (d.discuss_ms - d.warning_ms), warnEvt)]) := by
    simp only [discussionOps, hm, List.cons_append]
    simp only [runOps]
    rw [key (t0 + g)]
  refine ⟨by rw [hrun], by rw [hrun], fun h => by omega, fun hg => ?_⟩
  subst hg
  rw [hrun]
  constructor
  · simp
  · simp

/-- Claim C8 (amended) witness: a 5000 ms gather from phase entry at
time 0 under default durations — the warning fires at 25000 ms and the
wait ends at 35000 ms. -/
theorem C8_warning_timing_witness :
    (runOps 0 (discussionOps {} ⟨"DISCUSS", 1, [⟨"u-1", "hi"⟩]⟩ [] 5000)).2.2
      = [(0 + 5000 + (30000 - 10000 : Int), warnEvt)]
    ∧ (runOps 0 (discussionOps {} ⟨"DISCUSS", 1, [⟨"u-1", "hi"⟩]⟩ [] 5000)).1
      = 0 + 5000 + 30000 :=
  ⟨(C8_warning_timing {} ⟨"DISCUSS", 1, [⟨"u-1", "hi"⟩]⟩ ⟨"u-1", "hi"⟩ [] 5000 0
      (by decide)).1,
   (C8_warning_timing {} ⟨"DISCUSS", 1, [⟨"u-1", "hi"⟩]⟩ ⟨"u-1", "hi"⟩ [] 5000 0
      (by decide)).2.1⟩

end WhoIsHuman
